import Mathlib

/-!
Verification development for the porto container supervisor core
(container lifecycle engine, property map and persistent key-value store).

Each section gives a shallow embedding of the relevant C++ functions
(kvalue.cpp, container.cpp, property.cpp) as executable Lean definitions,
followed by theorems settling the specification claims about them.
-/

set_option maxHeartbeats 1000000

/-- Container lifecycle states (container.hpp / TContainer::ContainerStateName). -/
inductive EContainerState where
  | Stopped
  | Dead
  | Running
  | Paused
  | Meta
deriving DecidableEq

/-- Error kinds of TError (error.hpp); only the kinds the embedded code uses. -/
inductive EError where
  | Success
  | Unknown
  | InvalidValue
  | InvalidProperty
  | InvalidData
  | InvalidState
  | NotSupported
  | Permission
  | ResourceNotAvailable
  | ContainerAlreadyExists
  | ContainerDoesNotExist
deriving DecidableEq

/-! ## Persistent key-value store (kvalue.cpp) -/

namespace TKeyValueStorage

/-- A kv::TNode: the ordered list of key/value pairs of one protobuf record. -/
abbrev TNode := List (String × String)

/-- One step of TKeyValueStorage::Merge: insert key/value into an accumulated
node, replacing the value of the first pair with a matching key, or appending
a fresh pair at the end (kvalue.cpp lines 24-43, inner loop body). -/
def mergePair : TNode → String → String → TNode
  | [], key, val => [(key, val)]
  | p :: rest, key, val =>
    if p.1 = key then (key, val) :: rest else p :: mergePair rest key val

/-- TKeyValueStorage::Merge(node, next): merge every pair of `next` into
`node`, in order (kvalue.cpp lines 24-43). -/
def Merge (node next : TNode) : TNode :=
  next.foldl (fun acc p => mergePair acc p.1 p.2) node

/-- TKeyValueStorage::LoadNode (kvalue.cpp lines 45-65), on the list of
records parsed from the container's file.  The first record must be readable
(otherwise the protobuf read error is returned, modelled as `none`); every
further readable record is merged into the accumulated node. -/
def LoadNode : List TNode → Option TNode
  | [] => none
  | first :: rest => some (rest.foldl Merge first)

/-- TKeyValueStorage::AppendNode (kvalue.cpp lines 67-89): append one record
at the end of the container's log. -/
def AppendNode (log : List TNode) (node : TNode) : List TNode :=
  log ++ [node]

/-- Reading a key out of a merged node: the value of the first pair whose key
matches, which is the occurrence Merge itself updates (kvalue.cpp line 31). -/
def nodeGet (node : TNode) (key : String) : Option String :=
  (node.find? (fun p => p.1 = key)).map (fun p => p.2)

/-- TKeyValueStorage::Restore (kvalue.cpp lines 139-164): load every listed
node in order; `true` means every node loaded, `false` that a LoadNode error
was returned to the caller.  On an error the loop exits immediately with
`return error;`, so the out-parameter map keeps exactly the nodes inserted
before the failing one. -/
def Restore : List (String × List TNode) → Bool × List (String × TNode)
  | [] => (true, [])
  | (name, recs) :: rest =>
    match LoadNode recs with
    | none => (false, [])
    | some node =>
      let r := Restore rest
      (r.1, (name, node) :: r.2)

end TKeyValueStorage

namespace TKeyValueStorage

theorem nodeGet_mergePair_self (node : TNode) (key val : String) :
    nodeGet (mergePair node key val) key = some val := by
  induction node with
  | nil => simp [mergePair, nodeGet, List.find?]
  | cons p rest ih =>
    by_cases h : p.1 = key
    · simp [mergePair, h, nodeGet, List.find?]
    · simp only [mergePair, if_neg h]
      simpa [nodeGet, List.find?, h] using ih

theorem LoadNode_append_singleton (log : List TNode) (p v : String) :
    LoadNode (AppendNode log [(p, v)]) =
      some (match log with
            | [] => [(p, v)]
            | first :: rest => Merge (rest.foldl Merge first) [(p, v)]) := by
  cases log with
  | nil => rfl
  | cons first rest =>
    simp [AppendNode, LoadNode, List.foldl_append]

end TKeyValueStorage

open TKeyValueStorage in
/-- C5: for every persistent property `p` and value `v`, appending the record
that sets `p` to `v` at the end of the container's log and then loading the
node (last-write-wins merge of the append-only record sequence) restores
exactly `v` for `p`. -/
theorem persistent_roundtrip_last_write_wins (log : List TNode) (p v : String) :
    (LoadNode (AppendNode log [(p, v)])).map (fun n => nodeGet n p) =
      some (some v) := by
  rw [LoadNode_append_singleton]
  cases log with
  | nil => simp [nodeGet, List.find?]
  | cons first rest =>
    have hm : Merge (rest.foldl Merge first) [(p, v)] =
        mergePair (rest.foldl Merge first) p v := rfl
    simp [hm, nodeGet_mergePair_self]

open TKeyValueStorage in
/-- C2 counterexample: with three stored nodes where the middle one is corrupt
(its first record unreadable), Restore returns the error and a map holding
only the node loaded before the corrupt one; the third container's node is
NOT in the returned map, refuting the claim that Restore still returns the
merged nodes of every other container. -/
theorem restore_aborts_on_corrupt_node_cex :
    (Restore [("2", [[("a", "1")]]), ("3", []), ("4", [[("b", "2")]])]).1 = false ∧
    (Restore [("2", [[("a", "1")]]), ("3", []),
              ("4", [[("b", "2")]])]).2.find? (fun e => e.1 = "4") = none := by
  exact ⟨rfl, rfl⟩

open TKeyValueStorage in
/-- C2 (amended): a corrupt record that makes LoadNode fail causes Restore to
return that error immediately; the resulting map holds exactly the merged
nodes of the containers listed before the corrupt one, and no container after
it is restored in that call. -/
theorem restore_stops_at_first_corrupt_node
    (pre : List (String × List TNode)) (bad : String × List TNode)
    (rest : List (String × List TNode))
    (hpre : ∀ e ∈ pre, (LoadNode e.2).isSome)
    (hbad : LoadNode bad.2 = none) :
    Restore (pre ++ bad :: rest) =
      (false, pre.map (fun e => (e.1, (LoadNode e.2).getD []))) := by
  induction pre with
  | nil =>
    obtain ⟨bn, brecs⟩ := bad
    simp only [List.nil_append, List.map_nil]
    simp only at hbad
    simp [Restore, hbad]
  | cons e pre ih =>
    obtain ⟨name, recs⟩ := e
    have h1 : (LoadNode recs).isSome := hpre ⟨name, recs⟩ (by simp)
    obtain ⟨node, hn⟩ := Option.isSome_iff_exists.mp h1
    have ih' := ih (fun x hx => hpre x (List.mem_cons_of_mem _ hx))
    simp [Restore, hn, ih']

open TKeyValueStorage in
/-- Witness for the amended C2 theorem at a concrete store. -/
theorem restore_stops_at_first_corrupt_node_witness :
    Restore ([("2", [[("a", "1")]])] ++ ("3", []) :: [("4", [[("b", "2")]])]) =
      (false, [("2", [("a", "1")])]) := by
  exact restore_stops_at_first_corrupt_node
    [("2", [[("a", "1")]])] ("3", []) [("4", [[("b", "2")]])]
    (by decide) (by rfl)

/-! ## Hierarchical uint properties (container.cpp, property.cpp) -/

namespace TContainer

/-- A subtree of containers carrying the value of one hierarchical uint
property (e.g. memory_limit): the value at the node plus the child subtrees. -/
inductive PTree where
  | node (v : Nat) (children : List PTree)

/-- The property value stored at the container. -/
def PTree.val : PTree → Nat
  | .node v _ => v

/-- The container's children. -/
def PTree.kids : PTree → List PTree
  | .node _ cs => cs

mutual
/-- The contribution of one child to TContainer::GetChildrenSum
(container.cpp lines 290-308): its own value when non-zero, otherwise the
recursive sum over its children. -/
def nodeContrib : PTree → Nat
  | .node v cs => if v ≠ 0 then v else childrenSum cs

/-- TContainer::GetChildrenSum without an except-container: the sum of
`nodeContrib` over a list of children (container.cpp lines 290-308). -/
def childrenSum : List PTree → Nat
  | [] => 0
  | t :: ts => nodeContrib t + childrenSum ts
end

/-- TContainer::GetChildrenSum with an except-container that is the direct
child at index `i`, whose contribution is replaced by `ev` without recursing
into it (container.cpp lines 295-297). -/
def childrenSumExcept : List PTree → Nat → Nat → Nat
  | [], _, _ => 0
  | _ :: ts, 0, ev => ev + childrenSum ts
  | t :: ts, n + 1, ev => nodeContrib t + childrenSumExcept ts n ev

/-- The context of the container whose property is being set: its own
children, the property values of its ancestors walking upward (parent first),
and, when a parent exists, the parent's value together with the parent's
children list and the container's index in it. -/
structure HierCtx where
  selfChildren : List PTree
  ancestorVals : List Nat
  parentCtx : Option (Nat × List PTree × Nat)

/-- TContainer::ValidHierarchicalProperty (container.cpp lines 310-329):
reject when the children sum is non-zero and exceeds the new value; when some
ancestor has a non-zero value smaller than the new value; or when the parent
has a non-zero value smaller than its children sum with this container's
contribution replaced by the new value. -/
def ValidHierarchicalProperty (ctx : HierCtx) (value : Nat) : Bool :=
  let children := childrenSum ctx.selfChildren
  if children ≠ 0 ∧ value < children then false
  else if ctx.ancestorVals.any (fun a => decide (a ≠ 0 ∧ a < value)) then false
  else
    match ctx.parentCtx with
    | none => true
    | some (pv, pcs, idx) =>
      if pv ≠ 0 ∧ pv < childrenSumExcept pcs idx value then false else true

/-- TMemoryLimitProperty::CheckValue (property.cpp lines 408-422): the set is
rejected with InvalidValue exactly when ValidHierarchicalProperty fails. -/
def CheckValueMemLimit (ctx : HierCtx) (value : Nat) : EError :=
  if ValidHierarchicalProperty ctx value = false then .InvalidValue
  else .Success

end TContainer

open TContainer in
/-- C4 counterexample: grandparent G has memory_limit 100, its child A has 0,
and A has two children.  Setting the first grandchild to 100 and then the
second grandchild to 100 are both accepted by the hierarchical check (A, the
immediate parent, has value 0, so the parent children-sum test is skipped and
the ancestor test only compares the new value against G individually), yet
afterwards G's children sum is 200 > 100: the accepted sets do NOT preserve
parent(P) >= sum of children(P) for every container in the tree. -/
theorem hierarchical_check_accepts_invariant_violation :
    CheckValueMemLimit
      ⟨[], [0, 100], some (0, [PTree.node 0 [], PTree.node 0 []], 0)⟩ 100 =
        .Success ∧
    CheckValueMemLimit
      ⟨[], [0, 100], some (0, [PTree.node 100 [], PTree.node 0 []], 1)⟩ 100 =
        .Success ∧
    (PTree.node 100 [PTree.node 0 [PTree.node 100 [], PTree.node 100 []]]).val ≠ 0 ∧
    (PTree.node 100 [PTree.node 0 [PTree.node 100 [], PTree.node 100 []]]).val <
      childrenSum
        (PTree.node 100 [PTree.node 0 [PTree.node 100 [], PTree.node 100 []]]).kids := by
  decide

open TContainer in
/-- C4 (amended): the set is rejected with InvalidValue exactly under the
three stated conditions, and an accepted set does preserve the bound at the
IMMEDIATE parent whenever that parent's value is non-zero (the substituted
children-sum does not exceed the parent's value); the preservation does not
extend to higher ancestors reached through a zero-valued container. -/
theorem accepted_set_preserves_immediate_parent_bound
    (ctx : HierCtx) (v pv idx : Nat) (pcs : List PTree)
    (hv : ValidHierarchicalProperty ctx v = true)
    (hp : ctx.parentCtx = some (pv, pcs, idx)) (hpv : pv ≠ 0) :
    childrenSumExcept pcs idx v ≤ pv := by
  simp only [ValidHierarchicalProperty, hp] at hv
  split at hv
  · simp at hv
  · split at hv
    · simp at hv
    · split at hv
      · simp at hv
      · rename_i hcond
        push_neg at hcond
        exact hcond hpv

open TContainer in
/-- Witness for the amended C4 theorem at a concrete accepted set. -/
theorem accepted_set_preserves_immediate_parent_bound_witness :
    childrenSumExcept [PTree.node 60 [], PTree.node 0 []] 1 40 ≤ 100 :=
  accepted_set_preserves_immediate_parent_bound
    ⟨[], [100], some (100, [PTree.node 60 [], PTree.node 0 []], 1)⟩ 40 100 1
    [PTree.node 60 [], PTree.node 0 []] (by decide) rfl (by decide)

/-! ## Start and resource release (container.cpp lines 782-894, 987-1042) -/

namespace TContainer

/-- The resource-relevant slice of a container during Start: its state, which
resources it currently holds (traffic class handle, leaf cgroup map, OOM
event source, task object), the persistent raw_loop_dev property, and the
loop device currently taken from the host-wide pool and not yet returned. -/
structure RState where
  state : EContainerState
  tclass : Bool
  cgroups : Bool
  oomSource : Bool
  task : Bool
  rawLoopDev : Int
  heldLoop : Option Nat

/-- The outcomes of the fallible sub-steps of one Start call, fixed up front:
each field tells whether (or with which result) the corresponding kernel or
store operation would succeed. -/
structure StartEnv where
  meta : Bool
  commandEmpty : Bool
  rootIsSlashRdonly : Bool
  revalidateOk : Bool
  dataResetOk : Bool
  networkOk : Bool
  cgroupCreateOk : Bool
  applyPropsOk : Bool
  oomOk : Bool
  isolate : Bool
  rootIsDir : Bool
  loopDev : Option Nat
  setLoopOk : Bool
  prepareTaskOk : Bool
  taskStartOk : Bool
  setErrnoOk : Bool
  setRootPidOk : Bool

/-- TContainer::FreeResources (container.cpp lines 1016-1042): clear the leaf
cgroup map, drop the traffic class under the network lock, drop the task,
shut down the OOM source, reset raw_loop_dev to -1 and return a held loop
device to the pool when the recorded number was non-negative (stdio file
removal is a filesystem effect outside this model). -/
def FreeResources (c : RState) : RState :=
  let loopNr := c.rawLoopDev
  let c' : RState := { c with cgroups := false, tclass := false, task := false,
                              oomSource := false, rawLoopDev := -1 }
  if loopNr ≥ 0 then { c' with heldLoop := none } else c'

/-- TContainer::PrepareNetwork (container.cpp lines 426-464): the traffic
class handle is assigned before Tclass->Create(), so on a create failure the
handle is still held when the error is returned. -/
def PrepareNetwork (env : StartEnv) (c : RState) : EError × RState :=
  let c' := { c with tclass := true }
  if env.networkOk then (.Success, c') else (.Unknown, c')

/-- TContainer::PrepareCgroups (container.cpp lines 512-563): create the leaf
cgroups (the map is cleared again if a creation fails), apply dynamic
properties and the netcls classid (collapsed into `applyPropsOk`; on failure
the cgroups stay), then install the OOM monitor. -/
def PrepareCgroups (env : StartEnv) (c : RState) : EError × RState :=
  if ¬env.cgroupCreateOk then (.Unknown, { c with cgroups := false })
  else
    let c' := { c with cgroups := true }
    if ¬env.applyPropsOk then (.Unknown, c')
    else if ¬env.oomOk then (.Unknown, c')
    else (.Success, { c' with oomSource := true })

/-- TContainer::PrepareResources (container.cpp lines 987-1003): network then
cgroups; on either failure FreeResources runs before the error is returned. -/
def PrepareResources (env : StartEnv) (c : RState) : EError × RState :=
  let n := PrepareNetwork env c
  if n.1 ≠ .Success then (n.1, FreeResources n.2)
  else
    let g := PrepareCgroups env n.2
    if g.1 ≠ .Success then (g.1, FreeResources g.2)
    else (.Success, g.2)

/-- The tail of TContainer::Start from the raw_loop_dev write onwards
(container.cpp lines 849-882): record the loop device number, prepare and
start the task, record start_errno and raw_root_pid; `loopNr` is the number
obtained from GetLoopDev, or -1 when the root is a directory. -/
def startAfterLoop (env : StartEnv) (c : RState) (loopNr : Int) : EError × RState :=
  if ¬env.setLoopOk then
    let c' := if loopNr ≥ 0 then { c with heldLoop := none } else c
    (.Unknown, FreeResources c')
  else
    let c1 := { c with rawLoopDev := loopNr }
    if ¬env.prepareTaskOk then (.Unknown, FreeResources c1)
    else
      let c2 := { c1 with task := true }
      if ¬env.taskStartOk then (.Unknown, FreeResources c2)
      else if ¬env.setErrnoOk then (.Unknown, c2)
      else if ¬env.setRootPidOk then (.Unknown, c2)
      else (.Success, c2)

/-- TContainer::Start (container.cpp lines 782-894) on the resource slice:
state guard, empty-command and read-only-root guards, property re-validation,
data resets, PrepareResources, the loop-device/task block (skipped for an
isolated-free meta container), and the final SetState.  In the source, when
GetLoopDev fails the function returns the error BEFORE the FreeResources()
call on the next line (container.cpp lines 843-847), which is unreachable;
this embedding reproduces that order faithfully. -/
def Start (env : StartEnv) (c : RState) : EError × RState :=
  if c.state ≠ .Stopped then (.InvalidState, c)
  else if ¬env.meta ∧ env.commandEmpty then (.InvalidValue, c)
  else if env.rootIsSlashRdonly then (.InvalidValue, c)
  else if ¬env.revalidateOk then (.InvalidValue, c)
  else if ¬env.dataResetOk then (.Unknown, c)
  else
    let p := PrepareResources env c
    if p.1 ≠ .Success then (p.1, p.2)
    else
      let runState : EContainerState := if env.meta then .Meta else .Running
      if ¬env.meta ∨ env.isolate then
        let r :=
          if env.rootIsDir then startAfterLoop env p.2 (-1)
          else
            match env.loopDev with
            | none => (.Unknown, p.2)
            | some n => startAfterLoop env { p.2 with heldLoop := some n } (Int.ofNat n)
        if r.1 ≠ .Success then r
        else (.Success, { r.2 with state := runState })
      else (.Success, { p.2 with state := runState })

end TContainer

/-- A stopped container holding no resources, about to be started. -/
def TContainer.stoppedBare : TContainer.RState where
  state := .Stopped
  tclass := false
  cgroups := false
  oomSource := false
  task := false
  rawLoopDev := -1
  heldLoop := none

/-- A Start attempt of a non-meta container whose root is a regular file, in
which every step succeeds except GetLoopDev (the host loop-device pool is
exhausted). -/
def TContainer.loopFailEnv : TContainer.StartEnv where
  meta := false
  commandEmpty := false
  rootIsSlashRdonly := false
  revalidateOk := true
  dataResetOk := true
  networkOk := true
  cgroupCreateOk := true
  applyPropsOk := true
  oomOk := true
  isolate := true
  rootIsDir := false
  loopDev := none
  setLoopOk := true
  prepareTaskOk := true
  taskStartOk := true
  setErrnoOk := true
  setRootPidOk := true

open TContainer in
/-- C1: when GetLoopDev fails during Start of a stopped container, Start
returns an error and the container is left in Stopped, but the traffic
class, the leaf cgroups and the OOM event source prepared by this Start are
STILL held: the `return error;` at container.cpp line 845 precedes the
FreeResources() call on the next line, which is unreachable.  This refutes
the all-or-nothing release claim on the code as written (the dead call shows
the release was the intent). -/
theorem start_loopdev_failure_leaks_resources :
    (Start loopFailEnv stoppedBare).1 = .Unknown ∧
    (Start loopFailEnv stoppedBare).2.state = .Stopped ∧
    (Start loopFailEnv stoppedBare).2.tclass = true ∧
    (Start loopFailEnv stoppedBare).2.cgroups = true ∧
    (Start loopFailEnv stoppedBare).2.oomSource = true := by
  decide

/-! ## Stop, Resume, Destroy (container.cpp lines 201-239, 1065-1159) -/

namespace TContainer

/-- The lifecycle slice of a childless container used by Stop, Resume and
Destroy: state, freezer-frozen flag, whether a running task exists, whether
the resource handles (cgroups, traffic class, OOM source) are held, and
whether some ancestor is Paused (the condition Resume walks the parent chain
for). -/
structure Cont where
  state : EContainerState
  frozen : Bool
  task : Bool
  resources : Bool
  oomSource : Bool
  pausedAncestor : Bool

/-- TContainer::Resume (container.cpp lines 1139-1159) for a childless
container: reject unless Paused; reject when an ancestor is Paused; unfreeze
(`unfreezeOk` is the kernel write outcome) and set state Running. -/
def Resume (unfreezeOk : Bool) (c : Cont) : EError × Cont :=
  if c.state ≠ .Paused then (.InvalidState, c)
  else if c.pausedAncestor then (.InvalidState, c)
  else if ¬unfreezeOk then (.Unknown, c)
  else (.Success, { c with frozen := false, state := .Running })

/-- TContainer::Stop (container.cpp lines 1065-1119) for a childless
container: reject when Stopped or Paused; shut down the OOM source; when a
running task exists, KillAll it (`killOk`) and wait for the freezer cgroup
to drain (`drainOk`); then set state Stopped and free the resources. -/
def Stop (killOk drainOk : Bool) (c : Cont) : EError × Cont :=
  if c.state = .Stopped ∨ c.state = .Paused then (.InvalidState, c)
  else
    let c1 := { c with oomSource := false }
    if c.task ∧ ¬killOk then (.Unknown, c1)
    else if c.task ∧ ¬drainOk then (.Unknown, c1)
    else
      let c2 := { c1 with state := .Stopped }
      (.Success, { c2 with task := false, resources := false, frozen := false })

/-- TContainer::Destroy (container.cpp lines 201-239) for a childless
container: a Paused container is Resumed first; a running task is killed;
a non-Stopped container is Stopped; then the KV node is removed (outside
this slice) and the traffic class dropped. -/
def Destroy (unfreezeOk killOk drainOk : Bool) (c : Cont) : EError × Cont :=
  let r := if c.state = .Paused then Resume unfreezeOk c else (.Success, c)
  if r.1 ≠ .Success then r
  else
    let c1 := r.2
    if c1.state ≠ .Stopped then
      let s := Stop killOk drainOk c1
      if s.1 ≠ .Success then s else (.Success, s.2)
    else (.Success, c1)

/-- A paused container with a running (frozen) task and no paused ancestor. -/
def pausedCont : Cont where
  state := .Paused
  frozen := true
  task := true
  resources := true
  oomSource := true
  pausedAncestor := false

end TContainer

open TContainer in
/-- C3 counterexample: Stop invoked on a Paused container does not resume and
stop it; it is rejected with InvalidState and the container is unchanged
(container.cpp lines 1069-1071), refuting the claim that the Paused to
Stopped transition via Stop succeeds. -/
theorem stop_paused_rejected_cex :
    Stop true true pausedCont = (.InvalidState, pausedCont) := by
  rfl

open TContainer in
/-- C3 (amended): Stop rejects a Paused container with InvalidState and
leaves it unchanged; the Paused to Stopped transition is performed by
Destroy, which first resumes the container implicitly and then stops it. -/
theorem paused_to_stopped_via_destroy (c : Cont) (k d : Bool)
    (hp : c.state = .Paused) (ha : c.pausedAncestor = false) :
    Stop k d c = (.InvalidState, c) ∧
    (Destroy true true true c).1 = .Success ∧
    (Destroy true true true c).2.state = .Stopped := by
  refine ⟨?_, ?_, ?_⟩
  · simp [Stop, hp]
  · simp [Destroy, Resume, Stop, hp, ha]
  · simp [Destroy, Resume, Stop, hp, ha]

open TContainer in
/-- Witness for the amended C3 theorem at the concrete paused container. -/
theorem paused_to_stopped_via_destroy_witness :
    Stop true true pausedCont = (.InvalidState, pausedCont) ∧
    (Destroy true true true pausedCont).1 = .Success ∧
    (Destroy true true true pausedCont).2.state = .Stopped :=
  paused_to_stopped_via_destroy pausedCont true true (by decide) (by decide)

/-! ## Pause and recursive SetState (container.cpp lines 151-171, 1121-1137) -/

namespace TContainer

/-- A container subtree carrying only the lifecycle state of each node. -/
inductive CTree where
  | node (s : EContainerState) (children : List CTree)

/-- The state at the root of the subtree. -/
def CTree.state : CTree → EContainerState
  | .node s _ => s

mutual
/-- TContainer::SetState with tree=true (container.cpp lines 151-171): the
children are set recursively first, then the node itself. -/
def SetStateTree : CTree → EContainerState → CTree
  | .node _ cs, ns => .node ns (SetStateForest cs ns)

/-- The recursion of SetState over a children list. -/
def SetStateForest : List CTree → EContainerState → List CTree
  | [], _ => []
  | t :: ts, ns => SetStateTree t ns :: SetStateForest ts ns
end

mutual
/-- Whether every container in the subtree is in state `e`. -/
def allIn : CTree → EContainerState → Bool
  | .node s cs, e => decide (s = e) && allInForest cs e

/-- Whether every container in a forest is in state `e`. -/
def allInForest : List CTree → EContainerState → Bool
  | [], _ => true
  | t :: ts, e => allIn t e && allInForest ts e
end

/-- TContainer::Pause (container.cpp lines 1121-1137): reject unless the
state is Running (a Meta container is also rejected); freeze the freezer
cgroup (`freezeOk` is the kernel outcome, the returned Bool is the frozen
flag); then SetState(Paused, tree=true). -/
def Pause (freezeOk : Bool) (t : CTree) : Except EError (Bool × CTree) :=
  if t.state ≠ .Running then .error .InvalidState
  else if ¬freezeOk then .error .Unknown
  else .ok (true, SetStateTree t .Paused)

end TContainer

namespace TContainer

mutual
theorem allIn_SetStateTree : ∀ (t : CTree) (ns : EContainerState),
    allIn (SetStateTree t ns) ns = true
  | .node _ cs, ns => by
    simp [SetStateTree, allIn, allInForest_SetStateForest cs ns]

theorem allInForest_SetStateForest : ∀ (l : List CTree) (ns : EContainerState),
    allInForest (SetStateForest l ns) ns = true
  | [], _ => rfl
  | t :: ts, ns => by
    simp [SetStateForest, allInForest, allIn_SetStateTree t ns,
          allInForest_SetStateForest ts ns]
end

end TContainer

open TContainer in
/-- C6 counterexample: Pause on a container in state Meta does not freeze and
pause it; it fails with InvalidState (container.cpp line 1124 tests
state != Running only), refuting the claim that Pause succeeds from Meta. -/
theorem pause_meta_rejected_cex :
    Pause true (CTree.node .Meta []) = .error .InvalidState := by
  rfl

open TContainer in
/-- C6 (amended): Pause on a Running container freezes the freezer cgroup and
moves the whole subtree to Paused; Pause in any state other than Running
(Meta included) fails with InvalidState. -/
theorem pause_running_freezes_subtree (t : CTree) (fz : Bool) :
    (t.state = .Running → Pause true t = .ok (true, SetStateTree t .Paused) ∧
        allIn (SetStateTree t .Paused) .Paused = true) ∧
    (t.state ≠ .Running → Pause fz t = .error .InvalidState) := by
  constructor
  · intro h
    exact ⟨by simp [Pause, h], allIn_SetStateTree t .Paused⟩
  · intro h
    simp [Pause, h]

open TContainer in
/-- Witness for the amended C6 theorem at a concrete two-level subtree. -/
theorem pause_running_freezes_subtree_witness :
    Pause true (CTree.node .Running [CTree.node .Running [], CTree.node .Meta []]) =
      .ok (true, SetStateTree
        (CTree.node .Running [CTree.node .Running [], CTree.node .Meta []]) .Paused) ∧
    allIn (SetStateTree
      (CTree.node .Running [CTree.node .Running [], CTree.node .Meta []]) .Paused)
      .Paused = true :=
  (pause_running_freezes_subtree
    (CTree.node .Running [CTree.node .Running [], CTree.node .Meta []]) true).1 rfl

/-! ## Exit and exit-status delivery (container.cpp lines 1628-1693) -/

namespace TContainer

/-- The slice of a container visible to Exit and DeliverExitStatus: state,
the task handle with its root pid, whether the OOM eventfd has a pending
event (FdHasEvent(Efd)), the processes still in the freezer cgroup, the
isolate property, and the data/properties Exit writes. -/
structure Ct where
  state : EContainerState
  task : Option Nat
  efdHasEvent : Bool
  processes : List Nat
  isolate : Bool
  exitStatusData : Int
  oomKilledData : Bool
  deathTime : Option Nat
  rawRootPid : Int
  oomSource : Bool

/-- TContainer::Exit (container.cpp lines 1628-1680) for a childless
container: a non-forced, non-OOM event for an isolated container whose
freezer cgroup still holds processes is dropped before any effect; otherwise
the OOM source is shut down, exit_status and raw_death_time recorded, the
oom flag set when OOM-killed, the state moved to Dead and raw_root_pid
cleared (the cgroup KillAll calls signal the kernel only). -/
def Exit (now : Nat) (status : Int) (oomKilled force : Bool) (c : Ct) : Ct :=
  if force = false ∧ oomKilled = false ∧ c.processes ≠ [] ∧ c.isolate = true then c
  else
    { c with oomSource := false,
             exitStatusData := status,
             deathTime := some now,
             oomKilledData := if oomKilled then true else c.oomKilledData,
             state := .Dead,
             rawRootPid := 0 }

/-- TContainer::DeliverExitStatus (container.cpp lines 1682-1693): no task or
a root pid different from the delivered pid discards the event; a container
already Dead consumes it without effect; otherwise Exit runs with the OOM
flag read from the eventfd. -/
def DeliverExitStatus (now pid : Nat) (status : Int) (c : Ct) : Bool × Ct :=
  match c.task with
  | none => (false, c)
  | some rootPid =>
    if rootPid ≠ pid then (false, c)
    else if c.state = .Dead then (true, c)
    else (true, Exit now status c.efdHasEvent false c)

/-- A running isolated container with root pid 42 and a straggler process 43
still alive in its freezer cgroup, with no pending OOM event. -/
def stragglerCont : Ct where
  state := .Running
  task := some 42
  efdHasEvent := false
  processes := [43]
  isolate := true
  exitStatusData := -1
  oomKilledData := false
  deathTime := none
  rawRootPid := 42
  oomSource := true

end TContainer

open TContainer in
/-- C9: a non-forced, non-OOM exit event for an isolated container whose
freezer cgroup still holds processes leaves the container exactly as it was:
no exit_status, no death time, no transition to Dead. -/
theorem exit_skips_bogus_event (c : Ct) (now : Nat) (status : Int)
    (hiso : c.isolate = true) (hproc : c.processes ≠ []) :
    Exit now status false false c = c := by
  simp [Exit, hiso, hproc]

open TContainer in
/-- Witness for C9 at the concrete straggler container. -/
theorem exit_skips_bogus_event_witness :
    Exit 5 9 false false stragglerCont = stragglerCont :=
  exit_skips_bogus_event stragglerCont 5 9 (by decide) (by decide)

open TContainer in
/-- C7 counterexample: an exit event whose pid matches the root pid of a
container that is not Dead is consumed, yet the container does NOT transition
to Dead: the bogus-exit guard of Exit drops the event because the isolated
container's freezer cgroup still holds a process.  This refutes the claim
that a matching delivery on a non-Dead container always transitions it to
Dead. -/
theorem deliver_exit_consumed_without_dead_cex :
    DeliverExitStatus 5 42 9 stragglerCont = (true, stragglerCont) ∧
    stragglerCont.state ≠ .Dead := by
  exact ⟨rfl, by decide⟩

open TContainer in
/-- C7 (amended): the delivery takes effect only on a matching root pid — no
task or a different pid discards the event with no state change; on a match
with a container not already Dead, Exit runs and moves the container to Dead
unless the event is a non-OOM one for an isolated container whose freezer
cgroup still holds processes (in which case it is dropped, see C9). -/
theorem deliver_exit_status_routing (now pid : Nat) (status : Int) (c : Ct) :
    (c.task = none → DeliverExitStatus now pid status c = (false, c)) ∧
    (∀ rp, c.task = some rp → rp ≠ pid →
        DeliverExitStatus now pid status c = (false, c)) ∧
    (c.task = some pid → c.state ≠ .Dead →
      (c.efdHasEvent = true ∨ c.processes = [] ∨ c.isolate = false) →
      (DeliverExitStatus now pid status c).1 = true ∧
      (DeliverExitStatus now pid status c).2.state = .Dead) := by
  refine ⟨?_, ?_, ?_⟩
  · intro h
    simp [DeliverExitStatus, h]
  · intro rp h hne
    simp [DeliverExitStatus, h, hne]
  · intro h hd hcase
    have hds : DeliverExitStatus now pid status c =
        (true, Exit now status c.efdHasEvent false c) := by
      simp [DeliverExitStatus, h, hd]
    rw [hds]
    refine ⟨rfl, ?_⟩
    rcases hcase with he | hp | hi
    · simp [Exit, he]
    · simp [Exit, hp]
    · simp [Exit, hi]

open TContainer in
/-- Witness for the amended C7 theorem: a mismatching pid is discarded and a
matching pid with an empty freezer cgroup kills the container. -/
theorem deliver_exit_status_routing_witness :
    DeliverExitStatus 5 41 9 stragglerCont = (false, stragglerCont) ∧
    ((DeliverExitStatus 5 42 9 { stragglerCont with processes := [] }).1 = true ∧
     (DeliverExitStatus 5 42 9 { stragglerCont with processes := [] }).2.state = .Dead) :=
  ⟨(deliver_exit_status_routing 5 41 9 stragglerCont).2.1 42 rfl (by decide),
   (deliver_exit_status_routing 5 42 9 { stragglerCont with processes := [] }).2.2
     rfl (by decide) (Or.inr (Or.inl rfl))⟩

/-! ## Property access on the root containers (container.cpp lines 1252-1317) -/

namespace TContainer

/-- The id of the host root container.
Modelled from the spec: ROOT_CONTAINER_ID is declared in container.hpp,
which is not part of the covered sources; spec section 3 fixes id 0 for the
host root. -/
def ROOT_CONTAINER_ID : Nat := 0

/-- The id of the porto root container.
Modelled from the spec: PORTO_ROOT_CONTAINER_ID is declared in
container.hpp; spec section 3 fixes id 1 for the porto root. -/
def PORTO_ROOT_CONTAINER_ID : Nat := 1

/-- The slice of a container used by GetProperty/SetProperty: its id and its
property store (name/value pairs; validation, aliases and flags of the full
code path are outside the part the claim is about and are collapsed into
lookup success). -/
structure PCt where
  id : Nat
  props : List (String × String)

/-- TContainer::IsRoot (container.cpp lines 251-253). -/
def IsRoot (c : PCt) : Bool := c.id = ROOT_CONTAINER_ID

/-- TContainer::IsPortoRoot (container.cpp lines 255-257). -/
def IsPortoRoot (c : PCt) : Bool := c.id = PORTO_ROOT_CONTAINER_ID

/-- TContainer::GetProperty (container.cpp lines 1252-1298): the host root
and porto root are rejected with InvalidProperty before anything else; for
other containers an unknown name fails the Prop->Check and a known one
returns its value (subscripts, aliases and path re-rooting collapsed). -/
def GetProperty (c : PCt) (name : String) : Except EError String :=
  if IsRoot c || IsPortoRoot c then .error .InvalidProperty
  else
    match c.props.find? (fun p => p.1 = name) with
    | some p => .ok p.2
    | none => .error .InvalidProperty

/-- TContainer::SetProperty (container.cpp lines 1311-1391): the host root
and porto root are rejected with InvalidValue before any change; for other
containers an unknown name is rejected and a known one is overwritten
(permission, state gating and apply collapsed into the success path). -/
def SetProperty (c : PCt) (name value : String) : EError × PCt :=
  if IsRoot c || IsPortoRoot c then (.InvalidValue, c)
  else
    match c.props.find? (fun p => p.1 = name) with
    | none => (.InvalidProperty, c)
    | some _ =>
      (.Success,
       { c with props := c.props.map (fun p => if p.1 = name then (p.1, value) else p) })

end TContainer

open TContainer in
/-- C10: for every property name and value, GetProperty on the host root or
porto root fails with InvalidProperty and SetProperty on them fails with
InvalidValue, leaving the container unchanged. -/
theorem root_containers_reject_property_access (c : PCt) (name value : String)
    (h : c.id = ROOT_CONTAINER_ID ∨ c.id = PORTO_ROOT_CONTAINER_ID) :
    GetProperty c name = .error .InvalidProperty ∧
    SetProperty c name value = (.InvalidValue, c) := by
  have hroot : (IsRoot c || IsPortoRoot c) = true := by
    rcases h with h | h <;> simp [IsRoot, IsPortoRoot, h]
  exact ⟨by simp [GetProperty, hroot], by simp [SetProperty, hroot]⟩

open TContainer in
/-- Witness for C10 at the host root container. -/
theorem root_containers_reject_property_access_witness :
    GetProperty ⟨0, []⟩ "memory_limit" = .error .InvalidProperty ∧
    SetProperty ⟨0, []⟩ "memory_limit" "4096" = (.InvalidValue, ⟨0, []⟩) :=
  root_containers_reject_property_access ⟨0, []⟩ "memory_limit" "4096"
    (Or.inl rfl)

/-! ## RunningChildren accounting (container.cpp lines 112-171) -/

namespace TContainer

/-- The fixed shape of the container arena: `n` containers numbered 0..n-1
with a parent map; a parent always has a smaller id than its child (ids are
allocated parent-first), which makes the parent chains finite. -/
structure Shape where
  n : Nat
  parent : Nat → Option Nat
  parent_lt : ∀ i j, parent i = some j → j < i

/-- The ancestors of container `i`, obtained by walking the Parent pointers
upward as UpdateRunningChildren does. -/
def chain (sh : Shape) (i : Nat) : List Nat :=
  match hpar : sh.parent i with
  | none => []
  | some j => j :: chain sh j
termination_by i
decreasing_by exact sh.parent_lt i j hpar

/-- A container together with its ancestors: exactly the containers whose
RunningChildren counter UpdateRunningChildren(i, diff) touches. -/
def selfChain (sh : Shape) (i : Nat) : List Nat := i :: chain sh i

theorem chain_parent_none (sh : Shape) (i : Nat) (h : sh.parent i = none) :
    chain sh i = [] := by
  rw [chain.eq_def]
  split
  · rfl
  · rename_i j hj
    rw [h] at hj
    cases hj

theorem chain_parent_some (sh : Shape) (i j : Nat) (h : sh.parent i = some j) :
    chain sh i = j :: chain sh j := by
  rw [chain.eq_def]
  split
  · rename_i hj
    rw [h] at hj
    cases hj
  · rename_i j2 hj
    rw [h] at hj
    cases hj
    rfl

theorem mem_chain_lt (sh : Shape) : ∀ i k, k ∈ chain sh i → k < i := by
  intro i
  induction i using Nat.strong_induction_on with
  | _ i ih =>
    intro k hk
    cases hp : sh.parent i with
    | none =>
      rw [chain_parent_none sh i hp] at hk
      cases hk
    | some j =>
      have hj : j < i := sh.parent_lt i j hp
      rw [chain_parent_some sh i j hp] at hk
      rcases List.mem_cons.mp hk with h | h
      · omega
      · exact lt_trans (ih j hj k h) hj

theorem mem_selfChain_le (sh : Shape) (i k : Nat) (h : k ∈ selfChain sh i) :
    k ≤ i := by
  rcases List.mem_cons.mp h with h | h
  · omega
  · exact le_of_lt (mem_chain_lt sh i k h)

/-- TContainer::UpdateRunningChildren (container.cpp lines 112-117): add
`diff` to the container's own counter and recurse into the parent.  The
counter is a C++ size_t to which plus or minus 1 is added; under the proven invariant
the values never underflow, so the modular size_t arithmetic agrees with the
Int arithmetic used here. -/
def UpdateRunningChildren (sh : Shape) (diff : Int) (i : Nat) (rc : Nat → Int) :
    Nat → Int :=
  match hpar : sh.parent i with
  | none => fun j => if j = i then rc j + diff else rc j
  | some par =>
    UpdateRunningChildren sh diff par (fun j => if j = i then rc j + diff else rc j)
termination_by i
decreasing_by exact sh.parent_lt i par hpar

theorem urc_parent_none (sh : Shape) (diff : Int) (i : Nat) (rc : Nat → Int)
    (h : sh.parent i = none) :
    UpdateRunningChildren sh diff i rc =
      fun j => if j = i then rc j + diff else rc j := by
  rw [UpdateRunningChildren.eq_def]
  split
  · rfl
  · rename_i par hp
    rw [h] at hp
    cases hp

theorem urc_parent_some (sh : Shape) (diff : Int) (i par : Nat) (rc : Nat → Int)
    (h : sh.parent i = some par) :
    UpdateRunningChildren sh diff i rc =
      UpdateRunningChildren sh diff par
        (fun j => if j = i then rc j + diff else rc j) := by
  rw [UpdateRunningChildren.eq_def]
  split
  · rename_i hp
    rw [h] at hp
    cases hp
  · rename_i par2 hp
    rw [h] at hp
    cases hp
    rfl

theorem urc_spec (sh : Shape) (diff : Int) : ∀ (i : Nat) (rc : Nat → Int) (j : Nat),
    UpdateRunningChildren sh diff i rc j =
      rc j + (if j ∈ selfChain sh i then diff else 0) := by
  intro i
  induction i using Nat.strong_induction_on with
  | _ i ih =>
    intro rc j
    cases hp : sh.parent i with
    | none =>
      rw [urc_parent_none sh diff i rc hp]
      simp only [selfChain, chain_parent_none sh i hp]
      by_cases hj : j = i <;> simp [hj]
    | some par =>
      rw [urc_parent_some sh diff i par rc hp]
      rw [ih par (sh.parent_lt i par hp)]
      have hchain : selfChain sh i = i :: selfChain sh par := by
        simp [selfChain, chain_parent_some sh i par hp]
      rw [hchain]
      by_cases hj : j = i
      · subst hj
        have hnot : j ∉ selfChain sh par := by
          intro hmem
          have h1 := mem_selfChain_le sh par j hmem
          have h2 := sh.parent_lt j par hp
          omega
        simp [hnot]
      · simp [hj]

/-- The mutable per-container fields SetState touches, as functions over
container ids: the lifecycle state and the RunningChildren counter. -/
structure CStateF where
  st : Nat → EContainerState
  rc : Nat → Int

/-- TContainer::SetState for one container (container.cpp lines 151-171):
no effect when the state does not change; the counters of the container and
its ancestors gain 1 when the new state is Running and lose 1 when the old
state was Running; then the state is written.  The tree variant is a
sequence of these per-node steps. -/
def SetState (sh : Shape) (s : CStateF) (i : Nat) (ns : EContainerState) : CStateF :=
  if s.st i = ns then s
  else
    { st := fun j => if j = i then ns else s.st j,
      rc := if ns = .Running then UpdateRunningChildren sh 1 i s.rc
            else if s.st i = .Running then UpdateRunningChildren sh (-1) i s.rc
            else s.rc }

/-- An arbitrary sequence of state changes, each applied through SetState:
every lifecycle operation funnels its state updates through SetState. -/
def applyOps (sh : Shape) : List (Nat × EContainerState) → CStateF → CStateF
  | [], s => s
  | op :: rest, s => applyOps sh rest (SetState sh s op.1 op.2)

/-- The initial arena: every container Stopped (TContainer::Create ends in
SetState(Stopped)) with a zero counter. -/
def initState : CStateF := { st := fun _ => .Stopped, rc := fun _ => 0 }

/-- The number of containers in the subtree rooted at `c` (c itself
included) whose state is Running: d lies in the subtree of c exactly when c
is d or one of d's ancestors. -/
def subtreeRunning (sh : Shape) (s : CStateF) (c : Nat) : Int :=
  ∑ d ∈ Finset.range sh.n,
    (if s.st d = .Running ∧ c ∈ selfChain sh d then (1 : Int) else 0)

/-- Every container's RunningChildren counter equals the number of Running
containers in its subtree, itself included. -/
def RCInvariant (sh : Shape) (s : CStateF) : Prop :=
  ∀ c, c < sh.n → s.rc c = subtreeRunning sh s c

theorem sum_update_point (n i : Nat) (hi : i < n) (F G : Nat → Int)
    (hoff : ∀ d, d ≠ i → F d = G d) :
    ∑ d ∈ Finset.range n, F d = (∑ d ∈ Finset.range n, G d) - G i + F i := by
  have hmem : i ∈ Finset.range n := Finset.mem_range.mpr hi
  rw [← Finset.add_sum_erase _ F hmem, ← Finset.add_sum_erase _ G hmem]
  have hsame : ∑ d ∈ (Finset.range n).erase i, F d
      = ∑ d ∈ (Finset.range n).erase i, G d :=
    Finset.sum_congr rfl (fun d hd => hoff d (Finset.ne_of_mem_erase hd))
  rw [hsame]
  ring

theorem SetState_inv (sh : Shape) (s : CStateF) (i : Nat) (ns : EContainerState)
    (hi : i < sh.n) (h : RCInvariant sh s) : RCInvariant sh (SetState sh s i ns) := by
  intro c hc
  by_cases hs : s.st i = ns
  · have hid : SetState sh s i ns = s := by simp [SetState, hs]
    rw [hid]
    exact h c hc
  · have hst : (SetState sh s i ns).st = fun j => if j = i then ns else s.st j := by
      simp [SetState, hs]
    have hrc : (SetState sh s i ns).rc =
        (if ns = .Running then UpdateRunningChildren sh 1 i s.rc
         else if s.st i = .Running then UpdateRunningChildren sh (-1) i s.rc
         else s.rc) := by
      simp [SetState, hs]
    have hsum : subtreeRunning sh (SetState sh s i ns) c =
        subtreeRunning sh s c
        - (if s.st i = .Running ∧ c ∈ selfChain sh i then (1 : Int) else 0)
        + (if ns = .Running ∧ c ∈ selfChain sh i then (1 : Int) else 0) := by
      unfold subtreeRunning
      simp only [hst]
      rw [sum_update_point sh.n i hi
            (fun d => if (if d = i then ns else s.st d) = .Running ∧ c ∈ selfChain sh d
                      then (1 : Int) else 0)
            (fun d => if s.st d = .Running ∧ c ∈ selfChain sh d then (1 : Int) else 0)
            (fun d hd => by simp [hd])]
      have hii : (if i = i then ns else s.st i) = ns := if_pos rfl
      rw [hii]
    have hbase := h c hc
    rw [hsum, hrc]
    by_cases hns : ns = .Running
    · have hio : s.st i ≠ .Running := by
        intro hr
        exact hs (by rw [hr, hns])
      rw [if_pos hns, urc_spec, hbase]
      have h1 : (if s.st i = .Running ∧ c ∈ selfChain sh i then (1 : Int) else 0) = 0 := by
        simp [hio]
      have h2 : (if ns = .Running ∧ c ∈ selfChain sh i then (1 : Int) else 0)
          = (if c ∈ selfChain sh i then (1 : Int) else 0) := by
        simp [hns]
      rw [h1, h2]
      ring
    · by_cases hir : s.st i = .Running
      · rw [if_neg hns, if_pos hir, urc_spec, hbase]
        have h1 : (if s.st i = .Running ∧ c ∈ selfChain sh i then (1 : Int) else 0)
            = (if c ∈ selfChain sh i then (1 : Int) else 0) := by
          simp [hir]
        have h2 : (if ns = .Running ∧ c ∈ selfChain sh i then (1 : Int) else 0) = 0 := by
          simp [hns]
        rw [h1, h2]
        split_ifs <;> ring
      · rw [if_neg hns, if_neg hir, hbase]
        have h1 : (if s.st i = .Running ∧ c ∈ selfChain sh i then (1 : Int) else 0) = 0 := by
          simp [hir]
        have h2 : (if ns = .Running ∧ c ∈ selfChain sh i then (1 : Int) else 0) = 0 := by
          simp [hns]
        rw [h1, h2]
        ring

theorem applyOps_inv (sh : Shape) :
    ∀ (l : List (Nat × EContainerState)) (s : CStateF),
      (∀ op ∈ l, op.1 < sh.n) → RCInvariant sh s → RCInvariant sh (applyOps sh l s) := by
  intro l
  induction l with
  | nil =>
    intro s _ hs
    exact hs
  | cons op rest ih =>
    intro s hl hs
    simp only [applyOps]
    exact ih _ (fun x hx => hl x (List.mem_cons_of_mem _ hx))
      (SetState_inv sh s op.1 op.2 (hl op (List.mem_cons_self _ _)) hs)


end TContainer

open TContainer in
/-- C8: starting from the initial all-Stopped arena, after any sequence of
SetState operations on existing containers, every container's
RunningChildren counter equals the number of containers in its subtree
(itself included) whose state is Running: each change entering Running adds
1 and each change leaving Running subtracts 1 on the container and all its
ancestors, keeping the count exact. -/
theorem running_children_counts_subtree (sh : Shape)
    (ops : List (Nat × EContainerState))
    (hops : ∀ op ∈ ops, op.1 < sh.n) :
    RCInvariant sh (applyOps sh ops initState) := by
  have hinit : RCInvariant sh initState := by
    intro c hc
    simp [initState, subtreeRunning]
  exact applyOps_inv sh ops initState hops hinit

namespace TContainer



/-- A two-container arena: container 1 is the child of container 0. -/
def shW : Shape where
  n := 2
  parent := fun i => if i = 1 then some 0 else none
  parent_lt := by
    intro i j h
    by_cases hi : i = 1
    · subst hi
      simp at h
      omega
    · simp [hi] at h


end TContainer

open TContainer in
/-- Witness for C8 on the two-container arena after starting the child and
making the root a Meta container. -/
theorem running_children_counts_subtree_witness :
    RCInvariant shW (applyOps shW [(1, .Running), (0, .Meta)] initState) :=
  running_children_counts_subtree shW [(1, .Running), (0, .Meta)] (by decide)

